import Mathlib

/-!
Verification development for the Monte Carlo population-growth predictor.

The embedding models the statistical engine of the repository:
`data_processor.py` (cleaning/aggregation) and `monte_carlo.py`
(historical statistics, stochastic projection, summary, batch).

Modelling conventions:
* Machine floats are modelled by exact rationals `ℚ`; the arithmetic the
  code performs (`+`, `-`, `*`, `/`, comparisons) is embedded exactly.
* The two numeric-library routines whose results are irrational in general
  are treated as follows: `np.std` is embedded by its exact mathematical
  semantics `npStd` (square root of the population variance) where a claim
  is about its value, and is otherwise abstracted as a function parameter
  (field `std` of `NumLib`), so that theorems about control flow and the
  rational part of the pipeline hold for every value the library returns.
  The fractional power `x ** (1/years)` inside the CAGR field is likewise
  abstracted (field `root` of `NumLib`); no claim constrains its value.
* `np.random.normal(mean, std, shape)` is modelled by its characterisation
  `mean + std * z` where `z` is the matrix of standard-normal draws taken
  from the random source; the draw matrix is an explicit input, so every
  theorem quantifies over all possible randomness.
* Python `None` returns and library exceptions are modelled by `Option`.
-/

/-- Mean of a list of rationals, the exact semantics of `np.mean`:
sum divided by length. -/
def npMean (l : List ℚ) : ℚ := l.sum / l.length

/-- Population variance (`ddof = 0`): mean of the squared deviations from
the mean.  `np.std` is the square root of this quantity. -/
def popVariance (l : List ℚ) : ℚ :=
  ((l.map (fun x => (x - npMean l) ^ 2)).sum) / l.length

/-- Exact semantics of `np.std` on a list of rationals: the square root of
the population variance (numpy default `ddof = 0`). -/
noncomputable def npStd (l : List ℚ) : ℝ := Real.sqrt ((popVariance l : ℚ) : ℝ)

/-- THE SPEC'S population standard deviation, written out independently in
real arithmetic: the square root of the mean of squared deviations from the
arithmetic mean.  Compared with the code-side `npStd` in claim C4. -/
noncomputable def popStdDev (l : List ℚ) : ℝ :=
  Real.sqrt (((l.map (fun (x : ℚ) => ((x : ℝ) - (l.map (Rat.cast : ℚ → ℝ)).sum / l.length) ^ 2)).sum) / l.length)

/-- Minimum of a list, the semantics of `np.min` (0 on the empty list,
which numpy rejects; no claim evaluates it there). -/
def npMinimum : List ℚ → ℚ
  | [] => 0
  | x :: xs => xs.foldl min x

/-- Maximum of a list, the semantics of `np.max` (0 on the empty list). -/
def npMaximum : List ℚ → ℚ
  | [] => 0
  | x :: xs => xs.foldl max x

/-- Semantics of `np.clip(x, lo, hi)`: clamp `x` into `[lo, hi]`. -/
def clip (x lo hi : ℚ) : ℚ := min (max x lo) hi

/-- Linear interpolation at fractional position `h` into a (sorted) list,
the kernel of numpy's default percentile method: value
`s[i] + (h - i) * (s[i+1] - s[i])` with `i = ⌊h⌋`. -/
def interpAt (s : List ℚ) (h : ℚ) : ℚ :=
  let i := ⌊h⌋₊
  let lo := s.getD i 0
  let hi := s.getD (i + 1) lo
  lo + (h - (i : ℚ)) * (hi - lo)

/-- Exact semantics of `np.percentile(l, q)` with the default linear
interpolation: sort ascending and interpolate at virtual index
`q / 100 * (n - 1)`. -/
def percentile (l : List ℚ) (q : ℚ) : ℚ :=
  let s := List.insertionSort (· ≤ ·) l
  interpAt s (q / 100 * ((s.length : ℚ) - 1))

/-- Semantics of `np.median`: the 50th percentile under linear
interpolation (numpy computes exactly this value). -/
def npMedian (l : List ℚ) : ℚ := percentile l 50

/-- Raw record row after cleaning (`data_processor.py`, `clean_data`):
an integer year, a canonical category string, a numeric population. -/
structure Row where
  tahun : ℤ
  jenis_pekerjaan : String
  jumlah_penduduk : ℚ
deriving DecidableEq

/-- Aggregated series row (`data_processor.py`, `aggregate_data` output):
per-(year, category) population plus that year's total and the share. -/
structure AggRow where
  tahun : ℤ
  jenis_pekerjaan : String
  jumlah_penduduk : ℚ
  total_population : ℚ
  percentage : ℚ
deriving DecidableEq

/-- Historical statistics per category (`calculate_historical_stats`).
Polymorphic in the type `σ` carrying `std_growth`, so that the same
definition serves the exact-real reading (`σ = ℝ`, `np.std` embedded as
`npStd`) and the computable reading (`σ = ℚ`, `np.std` abstract). -/
structure HistStats (σ : Type) where
  years : List ℤ
  populations : List ℚ
  current_population : ℚ
  current_year : ℤ
  mean_growth : ℚ
  std_growth : σ
  n_years : ℕ

/-- Prediction summary record (`predict_job_growth` result dict). -/
structure PredictionStats where
  job_type : String
  current_year : ℤ
  current_population : ℚ
  target_year : ℤ
  n_simulations : ℕ
  mean_prediction : ℚ
  median_prediction : ℚ
  std_prediction : ℚ
  ci_lower : ℚ
  ci_upper : ℚ
  min_prediction : ℚ
  max_prediction : ℚ
  cagr : ℚ
deriving DecidableEq

/-- The two numeric-library routines whose float results the rational
pipeline consumes opaquely: `std` is `np.std` (its value feeds
`std_growth` on histories with at least two growth observations, and the
`std_prediction` field), `root` is `x ** (1 / years)` (the CAGR field).
Theorems quantify over every `NumLib`, hence hold for the library's. -/
structure NumLib where
  std : List ℚ → ℚ
  root : ℚ → ℕ → ℚ

/-- A concrete `NumLib` used to instantiate witnesses and counterexamples
(each use is at a point where the abstracted routine's value either does
not matter or coincides, as noted there). -/
def defLib : NumLib := ⟨fun _ => 0, fun _ _ => 0⟩

/-- Growth-rate sequence of `monte_carlo.py` lines 27-30: for each
consecutive pair of populations, `(p[i] - p[i-1]) / p[i-1]`. -/
def growthRates : List ℚ → List ℚ
  | a :: b :: rest => (b - a) / a :: growthRates (b :: rest)
  | _ => []

/-- Year-ordering on aggregated rows, the key of `sort_values('tahun')`. -/
def byYear (a b : AggRow) : Prop := a.tahun ≤ b.tahun

instance : DecidableRel byYear := fun a b => Int.decLe a.tahun b.tahun

instance : IsTotal AggRow byYear := ⟨fun a b => le_total a.tahun b.tahun⟩

instance : IsTrans AggRow byYear := ⟨fun _ _ _ h1 h2 => le_trans h1 h2⟩

/-- Embedding of `MonteCarloPredictor.calculate_historical_stats`
(`monte_carlo.py` lines 14-43), polymorphic in the `np.std` routine
`stdFn`: filter the aggregated series to the category, require at least 2
rows, sort by year, derive growth rates, and build the stats record with
`np.mean` of the growth rates (fallback 0.03 when empty, unreachable here)
and `np.std` of them when more than one exists (fallback 0.05 otherwise). -/
def calcStatsWith {σ : Type} [LinearOrderedField σ] (stdFn : List ℚ → σ)
    (df : List AggRow) (job_type : String) : Option (HistStats σ) :=
  let job_data := df.filter fun r => decide (r.jenis_pekerjaan = job_type)
  if job_data.length < 2 then none else
  let srt := List.insertionSort byYear job_data
  let years := srt.map (·.tahun)
  let populations := srt.map (·.jumlah_penduduk)
  let growth_rates := growthRates populations
  some ⟨years, populations, populations.getLastD 0, years.getLastD 0,
    if growth_rates.isEmpty then 3 / 100 else npMean growth_rates,
    if 1 < growth_rates.length then stdFn growth_rates else 1 / 20,
    years.length⟩

/-- The exact-real reading of `calculate_historical_stats`: `np.std`
embedded by its mathematical semantics `npStd`. -/
noncomputable def calculate_historical_stats (df : List AggRow) (job_type : String) :
    Option (HistStats ℝ) :=
  calcStatsWith npStd df job_type

/-- The clipped growth-rate sample matrix of `monte_carlo.py` lines 67-75:
entry `(i, t)` is `np.clip(mean + std * z i t, -0.5, 1.0)` where `z i t`
is the standard-normal draw the random source supplies for simulation `i`,
step `t` (`np.random.normal(mean, std, _) = mean + std * Z`). -/
def growthMatrix (mean std : ℚ) (ns y : ℕ) (z : ℕ → ℕ → ℚ) : List (List ℚ) :=
  (List.range ns).map fun i => (List.range y).map fun t => clip (mean + std * z i t) (-(1 / 2)) 1

/-- One simulated trajectory (`monte_carlo.py` lines 78-79, read per row):
starting from `p0`, each year multiplies by `(1 + growth)`.  The result
lists the whole row of the simulation matrix, column 0 first. -/
def compound (p0 : ℚ) : List ℚ → List ℚ
  | [] => [p0]
  | g :: gs => p0 :: compound (p0 * (1 + g)) gs

/-- The simulation matrix of `monte_carlo.py` lines 63-79 for given stats:
`n_simulations` rows, each the compounding of `current_population` through
that row of the clipped growth matrix. -/
def simsOf (s : HistStats ℚ) (ns y : ℕ) (z : ℕ → ℕ → ℚ) : List (List ℚ) :=
  (growthMatrix s.mean_growth s.std_growth ns y z).map (compound s.current_population)

/-- The terminal-year values `simulations[:, -1]` (line 82). -/
def finalsOf (s : HistStats ℚ) (ns y : ℕ) (z : ℕ → ℕ → ℚ) : List ℚ :=
  (simsOf s ns y z).map (fun row => row.getLastD 0)

/-- Embedding of the body of `MonteCarloPredictor.predict_job_growth`
(`monte_carlo.py` lines 57-112) given the category's statistics: validate
`target_year`, simulate, and summarise the terminal values.  Note the
percentile pair the source requests: `lower = (alpha / 2) * 100` but
`upper = 100 - alpha / 2` (no `* 100`), both kept exactly as written. -/
def predictWithStats (lib : NumLib) (s : HistStats ℚ) (job_type : String)
    (target_year : ℤ) (n_simulations : ℕ) (confidence_level : ℚ)
    (z : ℕ → ℕ → ℚ) : Option PredictionStats :=
  if target_year - s.current_year ≤ 0 then none else
  let y := (target_year - s.current_year).toNat
  let finals := finalsOf s n_simulations y z
  let alpha := 1 - confidence_level
  let lower_percentile := alpha / 2 * 100
  let upper_percentile := 100 - alpha / 2
  some ⟨job_type, s.current_year, s.current_population, target_year, n_simulations,
    npMean finals, npMedian finals, lib.std finals,
    percentile finals lower_percentile, percentile finals upper_percentile,
    npMinimum finals, npMaximum finals,
    (lib.root (npMean finals / s.current_population) y - 1) * 100⟩

/-- Embedding of `MonteCarloPredictor.predict_job_growth` from the
aggregated series: compute the category's statistics (the source caches
them in `self.historical_stats`; the cache is a pure memoisation of this
same computation) and run the simulation.  `None` on insufficient data or
an invalid target year, as in the source. -/
def predict_job_growth (lib : NumLib) (df : List AggRow) (job_type : String)
    (target_year : ℤ) (n_simulations : ℕ) (confidence_level : ℚ)
    (z : ℕ → ℕ → ℚ) : Option PredictionStats :=
  (calcStatsWith lib.std df job_type).bind fun s =>
    predictWithStats lib s job_type target_year n_simulations confidence_level z

/-- Loop of `MonteCarloPredictor.batch_predict` (`monte_carlo.py` lines
114-131): call `predict_job_growth` per category — forwarding `target_year`
and `n_simulations` but no confidence level, so each call uses the default
`confidence_level = 0.95` of `predict_job_growth`'s signature — and append
the truthy results in order.  `zs k` is the draw matrix the random source
supplies for the `k`-th call. -/
def batchAux (lib : NumLib) (df : List AggRow) (target_year : ℤ)
    (n_simulations : ℕ) (zs : ℕ → ℕ → ℕ → ℚ) : List String → ℕ → List PredictionStats
  | [], _ => []
  | jt :: rest, k =>
    match predict_job_growth lib df jt target_year n_simulations (95 / 100) (zs k) with
    | some r => r :: batchAux lib df target_year n_simulations zs rest (k + 1)
    | none => batchAux lib df target_year n_simulations zs rest (k + 1)

/-- Embedding of `MonteCarloPredictor.batch_predict`. -/
def batch_predict (lib : NumLib) (df : List AggRow) (job_types : List String)
    (target_year : ℤ) (n_simulations : ℕ) (zs : ℕ → ℕ → ℕ → ℚ) : List PredictionStats :=
  batchAux lib df target_year n_simulations zs job_types 0

/-- Modelled from the spec: the batch orchestrator as the specification
describes it, forwarding one shared caller-supplied `confidence_level` to
every per-category prediction and keeping the successful results in input
order.  Used in claim C2 to compare the code's `batch_predict` against the
specified behaviour. -/
def batchPredictSpec (confidence_level : ℚ) (lib : NumLib) (df : List AggRow)
    (job_types : List String) (target_year : ℤ) (n_simulations : ℕ)
    (zs : ℕ → ℕ → ℕ → ℚ) : List PredictionStats :=
  job_types.enum.filterMap fun p =>
    predict_job_growth lib df p.2 target_year n_simulations confidence_level (zs p.1)

/-- Grouping step of `DataPreprocessor.aggregate_data` (`data_processor.py`
line 41): one row per distinct (year, category) key, carrying the sum of
`jumlah_penduduk` over the matching input rows. -/
def groupedRows (df : List Row) : List Row :=
  ((df.map fun r => (r.tahun, r.jenis_pekerjaan)).dedup).map fun k =>
    ⟨k.1, k.2, ((df.filter fun r => decide (r.tahun = k.1 ∧ r.jenis_pekerjaan = k.2)).map (·.jumlah_penduduk)).sum⟩

/-- Yearly total of `data_processor.py` line 47: the sum of the aggregated
populations over the rows of one year. -/
def yearlyTotal (agg : List Row) (y : ℤ) : ℚ :=
  ((agg.filter fun r => decide (r.tahun = y)).map (·.jumlah_penduduk)).sum

/-- Ordering on raw rows by year, the key of line 44's `sort_values`. -/
def rowByYear (a b : Row) : Prop := a.tahun ≤ b.tahun

instance : DecidableRel rowByYear := fun a b => Int.decLe a.tahun b.tahun

/-- Merge step of `data_processor.py` lines 50-54: one aggregated row
joined with its year's total and given its percentage share
`jumlah_penduduk / total_population * 100`. -/
def joinRow (A : List Row) (r : Row) : AggRow :=
  ⟨r.tahun, r.jenis_pekerjaan, r.jumlah_penduduk, yearlyTotal A r.tahun,
    r.jumlah_penduduk / yearlyTotal A r.tahun * 100⟩

/-- Embedding of `DataPreprocessor.aggregate_data` (`data_processor.py`
lines 36-57): group by (year, category) summing populations, sort by year,
join each row with its year's total, and derive the percentage share. -/
def aggregate_data (df : List Row) : List AggRow :=
  let aggregated := List.insertionSort rowByYear (groupedRows df)
  aggregated.map (joinRow aggregated)

/-- Shape statement for a simulation matrix: row count, a common row
length, and a common first column value. -/
def matrixShape (m : List (List ℚ)) (rows cols : ℕ) (p0 : ℚ) : Prop :=
  m.length = rows ∧ (∀ row ∈ m, row.length = cols) ∧ ∀ row ∈ m, row.head? = some p0

/-- Range statement for a growth matrix: every entry in `[-0.5, 1.0]`. -/
def matrixInRange (m : List (List ℚ)) : Prop :=
  ∀ row ∈ m, ∀ g ∈ row, -(1 / 2) ≤ g ∧ g ≤ 1

/-- Nonnegativity statement for a simulation matrix. -/
def matrixNonneg (m : List (List ℚ)) : Prop :=
  ∀ row ∈ m, ∀ x ∈ row, 0 ≤ x

/-- Confidence-interval bracketing statement for a prediction result. -/
def ciOk (o : Option PredictionStats) : Prop :=
  ∀ r ∈ o, r.ci_lower ≤ r.median_prediction ∧ r.median_prediction ≤ r.ci_upper

/-- Nonnegativity of the summary statistics of a prediction result. -/
def nonnegOk (o : Option PredictionStats) : Prop :=
  ∀ r ∈ o, 0 ≤ r.mean_prediction ∧ 0 ≤ r.median_prediction ∧ 0 ≤ r.min_prediction ∧
    0 ≤ r.max_prediction ∧ 0 ≤ r.ci_lower ∧ 0 ≤ r.ci_upper

/-- Pointwise characterisation of the growth-rate list derived from a
population sequence: length `n - 1` and entry `i` equal to
`(p[i+1] - p[i]) / p[i]`. -/
def growthSpec (pops g : List ℚ) : Prop :=
  g.length = pops.length - 1 ∧
  ∀ i : ℕ, i + 1 < pops.length → g.getD i 0 = (pops.getD (i + 1) 0 - pops.getD i 0) / pops.getD i 0

/-- Claim C4's statement for one category of one aggregated series: the
filtered rows are sorted by ascending year (as a permutation), the growth
list is the pointwise consecutive-ratio list with `n - 1` entries, and the
produced statistics carry the arithmetic mean and the population standard
deviation (fallback 0.05 with exactly one growth observation). -/
def statsSpec (df : List AggRow) (jt : String) : Prop :=
  let jd := df.filter fun r => decide (r.jenis_pekerjaan = jt)
  let srt := List.insertionSort byYear jd
  let pops := srt.map (·.jumlah_penduduk)
  let g := growthRates pops
  srt.Perm jd ∧ List.Sorted (· ≤ ·) (srt.map (·.tahun)) ∧
  growthSpec pops g ∧ g.length = jd.length - 1 ∧
  (calculate_historical_stats df jt).isSome ∧
  ∀ st ∈ calculate_historical_stats df jt,
    st.populations = pops ∧
    st.mean_growth = g.sum / g.length ∧
    (2 ≤ g.length → st.std_growth = popStdDev g) ∧
    (g.length = 1 → st.std_growth = 1 / 20)

lemma compound_length (p0 : ℚ) (gs : List ℚ) : (compound p0 gs).length = gs.length + 1 := by
  induction gs generalizing p0 with
  | nil => rfl
  | cons g gs ih => simp [compound, ih]

lemma compound_head (p0 : ℚ) (gs : List ℚ) : (compound p0 gs).head? = some p0 := by
  cases gs <;> rfl

lemma compound_ne_nil (p0 : ℚ) (gs : List ℚ) : compound p0 gs ≠ [] := by
  cases gs <;> simp [compound]

lemma mem_growthMatrix {mean std : ℚ} {ns y : ℕ} {z : ℕ → ℕ → ℚ} {row : List ℚ}
    (h : row ∈ growthMatrix mean std ns y z) :
    ∃ i, row = (List.range y).map fun t => clip (mean + std * z i t) (-(1 / 2)) 1 := by
  simp only [growthMatrix, List.mem_map, List.mem_range] at h
  obtain ⟨i, _, hi⟩ := h
  exact ⟨i, hi.symm⟩

lemma clip_le_hi (x lo hi : ℚ) : clip x lo hi ≤ hi := min_le_right _ _

lemma lo_le_clip {lo hi : ℚ} (x : ℚ) (h : lo ≤ hi) : lo ≤ clip x lo hi :=
  le_min (le_max_right x lo) h

/-- C5: for target_year > current_year and n_simulations ≥ 1, the
simulation matrix has n_simulations rows, (target_year - current_year) + 1
columns, and column 0 equal to current_population in every row. -/
theorem c5_simulation_matrix_shape (s : HistStats ℚ) (ty : ℤ) (ns : ℕ) (z : ℕ → ℕ → ℚ)
    (hty : s.current_year < ty) (hns : 1 ≤ ns) :
    matrixShape (simsOf s ns (ty - s.current_year).toNat z) ns
      ((ty - s.current_year).toNat + 1) s.current_population := by
  refine ⟨?_, ?_, ?_⟩
  · simp [simsOf, growthMatrix]
  · intro row hrow
    simp only [simsOf, List.mem_map] at hrow
    obtain ⟨gr, hgr, hrow⟩ := hrow
    obtain ⟨i, hi⟩ := mem_growthMatrix hgr
    subst hi hrow
    simp [compound_length]
  · intro row hrow
    simp only [simsOf, List.mem_map] at hrow
    obtain ⟨gr, _, hrow⟩ := hrow
    subst hrow
    exact compound_head _ _

/-- Witness for C5 at a concrete prediction request. -/
theorem c5_simulation_matrix_shape_witness :
    matrixShape (simsOf ⟨[2020], [100], 100, 2020, 0, 0, 1⟩ 2 ((2022 - (2020 : ℤ)).toNat) fun _ _ => 0) 2
      (((2022 : ℤ) - 2020).toNat + 1) 100 :=
  c5_simulation_matrix_shape ⟨[2020], [100], 100, 2020, 0, 0, 1⟩ 2022 2 (fun _ _ => 0)
    (by decide) (by decide)

/-- C8: after clipping, every sampled growth rate lies in [-0.5, 1.0], for
any mean and any non-negative standard deviation. -/
theorem c8_clipped_growth_in_range (mean std : ℚ) (ns y : ℕ) (z : ℕ → ℕ → ℚ)
    (hstd : 0 ≤ std) : matrixInRange (growthMatrix mean std ns y z) := by
  intro row hrow g hg
  obtain ⟨i, hi⟩ := mem_growthMatrix hrow
  subst hi
  simp only [List.mem_map, List.mem_range] at hg
  obtain ⟨t, _, hg⟩ := hg
  subst hg
  exact ⟨lo_le_clip _ (by norm_num), clip_le_hi _ _ _⟩

/-- Witness for C8 at concrete sampling parameters. -/
theorem c8_clipped_growth_in_range_witness :
    0 ≤ (1 : ℚ) ∧ matrixInRange (growthMatrix 0 1 2 3 fun _ t => 7 * t) :=
  ⟨by norm_num, c8_clipped_growth_in_range 0 1 2 3 (fun _ t => 7 * t) (by norm_num)⟩

/-- Concrete statistics for exercising the summariser: current population
100 in 2021, mean growth 0, growth standard deviation 1. -/
def sC1 : HistStats ℚ := ⟨[2021], [100], 100, 2021, 0, 1, 1⟩

/-- Concrete standard-normal draws: simulation `i` draws `i / 20`, so the
five 1-step trajectories end at 100, 105, 110, 115, 120. -/
def zC1 : ℕ → ℕ → ℚ := fun i _ => (i : ℚ) / 20

lemma floor_q_eq {q : ℚ} {n : ℕ} (h0 : 0 ≤ q) (h1 : (n : ℚ) ≤ q) (h2 : q < n + 1) :
    ⌊q⌋₊ = n := by
  rw [Nat.floor_eq_iff h0]
  exact ⟨h1, h2⟩

lemma c1_finals : finalsOf sC1 5 1 zC1 = [100, 105, 110, 115, 120] := by
  norm_num [finalsOf, simsOf, growthMatrix, compound, clip, sC1, zC1, List.range_succ,
    min_def, max_def, List.getLastD]

/-- C1: FALSE of the code as stated; the code is the slip.  At
confidence_level 0.95 the upper bound the source requests is the
`100 - alpha/2 = 99.975`-th percentile (line 87 omits the `* 100` that
line 86 applies to the lower bound), not the `100 - 50*(1-c) = 97.5`-th
percentile of the claim: on the five terminal values 100..120 the code
returns 119.995 while the claimed interval's upper bound is 119.5. -/
theorem c1_ci_upper_percentile_divergence :
    ((predictWithStats defLib sC1 "x" 2022 5 (19 / 20) zC1).map PredictionStats.ci_upper) =
      some (23999 / 200) ∧
    percentile (finalsOf sC1 5 1 zC1) (100 - 50 * (1 - 19 / 20)) = 239 / 2 ∧
    ((23999 : ℚ) / 200) ≠ 239 / 2 := by
  have hfl1 : ⌊(3999 : ℚ) / 1000⌋₊ = 3 := floor_q_eq (by norm_num) (by norm_num) (by norm_num)
  have hfl2 : ⌊(39 : ℚ) / 10⌋₊ = 3 := floor_q_eq (by norm_num) (by norm_num) (by norm_num)
  refine ⟨?_, ?_, by norm_num⟩
  · norm_num [predictWithStats, sC1]
    show percentile (finalsOf sC1 5 1 zC1) (3999 / 40) = 23999 / 200
    rw [c1_finals]
    norm_num [percentile, interpAt, List.insertionSort, List.orderedInsert, List.getD]
    norm_num [hfl1]
  · have h2 : percentile [100, 105, 110, 115, 120] (100 - 50 * (1 - 19 / 20)) = 239 / 2 := by
      norm_num [percentile, interpAt, List.insertionSort, List.orderedInsert, List.getD]
      norm_num [hfl2]
    rw [c1_finals]
    exact h2

lemma compound_getLastD (p0 d : ℚ) (gs : List ℚ) :
    (compound p0 gs).getLastD d = p0 * (gs.map fun g => 1 + g).prod := by
  induction gs generalizing p0 d with
  | nil => simp [compound]
  | cons g gs ih =>
    simp only [compound, List.getLastD_cons, List.map_cons, List.prod_cons, ih]
    ring

lemma range_map_const {α : Type} (c : α) (y : ℕ) :
    (List.range y).map (fun _ => c) = List.replicate y c := by
  induction y with
  | zero => rfl
  | succ n ih =>
    rw [List.range_succ, List.map_append, ih, List.replicate_succ']
    rfl

lemma growthMatrix_std_zero (mean : ℚ) (ns y : ℕ) (z : ℕ → ℕ → ℚ) :
    growthMatrix mean 0 ns y z =
      List.replicate ns (List.replicate y (clip mean (-(1 / 2)) 1)) := by
  unfold growthMatrix
  simp only [zero_mul, add_zero, range_map_const]

lemma finalsOf_std_zero (s : HistStats ℚ) (y : ℕ) (z : ℕ → ℕ → ℚ) (hstd : s.std_growth = 0) :
    finalsOf s 1 y z =
      [s.current_population * (1 + clip s.mean_growth (-(1 / 2)) 1) ^ y] := by
  unfold finalsOf simsOf
  rw [hstd, growthMatrix_std_zero, List.replicate_one]
  simp only [List.map_cons, List.map_nil]
  rw [compound_getLastD, List.map_replicate, List.prod_replicate]

lemma npMedian_singleton (v : ℚ) : npMedian [v] = v := by
  norm_num [npMedian, percentile, List.insertionSort, List.orderedInsert, interpAt, List.getD]

/-- Statement that every terminal point statistic of a prediction result
equals one common value `v`. -/
def terminalStatsEq (o : Option PredictionStats) (v : ℚ) : Prop :=
  ∀ r ∈ o, r.mean_prediction = v ∧ r.median_prediction = v ∧
    r.min_prediction = v ∧ r.max_prediction = v

/-- Concrete statistics refuting C6 as stated: history 100, 300, 900 gives
growth rates [2, 2], hence mean_growth 2 and std_growth 0 (`np.std` of a
constant list is exactly 0, which the abstracted library routine of
`defLib` also returns here). -/
def sC6 : HistStats ℚ := ⟨[2019, 2020, 2021], [100, 300, 900], 900, 2021, 2, 0, 3⟩

/-- C6, counterexample to the claim as stated: with std_growth = 0,
n_simulations = 1, target 2022 and mean_growth = 2, the code clips the
growth rate to 1.0 and returns mean_prediction 1800, not
current_population * (1 + mean_growth)^1 = 2700 as the claim asserts for
any mean_growth. -/
theorem c6_terminal_formula_cex :
    ((predictWithStats defLib sC6 "A" 2022 1 (19 / 20) fun _ _ => 0).map
        PredictionStats.mean_prediction) = some 1800 ∧
    (1800 : ℚ) ≠ 900 * (1 + 2) ^ 1 := by
  constructor
  · norm_num [predictWithStats, sC6, finalsOf, simsOf, growthMatrix, compound, clip,
      List.range_succ, min_def, max_def, List.getLastD, npMean]
  · norm_num

/-- C6 as amended: with std_growth = 0 and n_simulations = 1 the
trajectory is deterministic (the result does not depend on the draws), and
every terminal statistic equals
`current_population * (1 + clip(mean_growth, -0.5, 1.0))^years_to_predict`;
the claim's formula holds exactly when mean_growth is inside the clipping
range [-0.5, 1.0]. -/
theorem c6_deterministic_clipped_formula (lib : NumLib) (s : HistStats ℚ) (jt : String)
    (ty : ℤ) (c : ℚ) (z z' : ℕ → ℕ → ℚ) (hstd : s.std_growth = 0)
    (hty : s.current_year < ty) :
    predictWithStats lib s jt ty 1 c z = predictWithStats lib s jt ty 1 c z' ∧
    terminalStatsEq (predictWithStats lib s jt ty 1 c z)
      (s.current_population * (1 + clip s.mean_growth (-(1 / 2)) 1) ^ (ty - s.current_year).toNat) := by
  have hneg : ¬ (ty - s.current_year ≤ 0) := by omega
  constructor
  · simp only [predictWithStats, if_neg hneg]
    rw [finalsOf_std_zero s _ z hstd, finalsOf_std_zero s _ z' hstd]
  · intro r hr
    simp only [predictWithStats, if_neg hneg] at hr
    rw [finalsOf_std_zero s _ z hstd] at hr
    simp only [Option.mem_def, Option.some.injEq] at hr
    subst hr
    refine ⟨?_, ?_, ?_, ?_⟩
    · simp [npMean]
    · exact npMedian_singleton _
    · rfl
    · rfl

/-- Witness for the amended C6: the spec's Petani scenario (121 jobs in
2020, mean growth 0.1, zero dispersion) predicted two years ahead, under
two different draw matrices. -/
theorem c6_deterministic_clipped_formula_witness :
    predictWithStats defLib ⟨[2018, 2019, 2020], [100, 110, 121], 121, 2020, 1 / 10, 0, 3⟩
        "Petani" 2022 1 (19 / 20) (fun _ _ => 3) =
      predictWithStats defLib ⟨[2018, 2019, 2020], [100, 110, 121], 121, 2020, 1 / 10, 0, 3⟩
        "Petani" 2022 1 (19 / 20) (fun _ _ => -5) ∧
    terminalStatsEq
      (predictWithStats defLib ⟨[2018, 2019, 2020], [100, 110, 121], 121, 2020, 1 / 10, 0, 3⟩
        "Petani" 2022 1 (19 / 20) (fun _ _ => 3))
      (121 * (1 + clip (1 / 10) (-(1 / 2)) 1) ^ ((2022 - (2020 : ℤ)).toNat)) :=
  c6_deterministic_clipped_formula defLib
    ⟨[2018, 2019, 2020], [100, 110, 121], 121, 2020, 1 / 10, 0, 3⟩ "Petani" 2022 (19 / 20)
    (fun _ _ => 3) (fun _ _ => -5) rfl (by decide)

lemma batchAux_eq (lib : NumLib) (df : List AggRow) (ty : ℤ) (ns : ℕ)
    (zs : ℕ → ℕ → ℕ → ℚ) (l : List String) (k : ℕ) :
    batchAux lib df ty ns zs l k =
      (List.enumFrom k l).filterMap fun p =>
        predict_job_growth lib df p.2 ty ns (95 / 100) (zs p.1) := by
  induction l generalizing k with
  | nil => rfl
  | cons jt rest ih =>
    rw [List.enumFrom_cons, List.filterMap_cons]
    cases h : predict_job_growth lib df jt ty ns (95 / 100) (zs k) with
    | none => simp only [batchAux, h, ih]
    | some r => simp only [batchAux, h, ih]

/-- Aggregated series of the spec's Petani scenario: one category with
three years 2018-2020 and populations 100, 110, 121. -/
def dfPetani : List AggRow :=
  [⟨2018, "Petani", 100, 100, 100⟩, ⟨2019, "Petani", 110, 110, 100⟩,
   ⟨2020, "Petani", 121, 121, 100⟩]

lemma c7_stats_petani :
    calcStatsWith defLib.std dfPetani "Petani" =
      some ⟨[2018, 2019, 2020], [100, 110, 121], 121, 2020, 1 / 10, 0, 3⟩ := by
  norm_num [calcStatsWith, dfPetani, List.insertionSort, List.orderedInsert, byYear,
    growthRates, npMean, List.getLastD, defLib, List.filter]

lemma c7_finals_petani :
    finalsOf ⟨[2018, 2019, 2020], [100, 110, 121], 121, 2020, 1 / 10, 0, 3⟩ 2
      ((2022 - (2020 : ℤ)).toNat) (fun _ _ => 0) = [14641 / 100, 14641 / 100] := by
  norm_num [finalsOf, simsOf, growthMatrix, compound, clip, min_def, max_def,
    List.range_succ, List.getLastD]

lemma c7_predict_petani :
    predict_job_growth defLib dfPetani "Petani" 2022 2 (95 / 100) (fun _ _ => 0) =
      some ⟨"Petani", 2020, 121, 2022, 2, 14641 / 100, 14641 / 100, 0, 14641 / 100,
        14641 / 100, 14641 / 100, 14641 / 100, -100⟩ := by
  rw [predict_job_growth, c7_stats_petani, Option.some_bind]
  rw [predictWithStats, if_neg (by decide)]
  simp only [c7_finals_petani]
  have hm : npMean [(14641 : ℚ) / 100, 14641 / 100] = 14641 / 100 := by norm_num [npMean]
  have hp : ∀ q : ℚ, 0 ≤ q → q ≤ 100 →
      percentile [(14641 : ℚ) / 100, 14641 / 100] q = 14641 / 100 := by
    intro q h0 h1
    have hfl : ⌊q / 100⌋₊ = 0 ∨ ⌊q / 100⌋₊ = 1 := by
      rcases lt_or_ge (q / 100) 1 with h | h
      · exact Or.inl (Nat.floor_eq_zero.mpr h)
      · refine Or.inr (floor_q_eq (by positivity) (by push_cast; linarith) ?_)
        push_cast
        linarith
    rcases hfl with h | h <;>
      norm_num [percentile, interpAt, List.insertionSort, List.orderedInsert, h, List.getD]
  norm_num [hm, npMedian, npMinimum, npMaximum, defLib]
  exact ⟨hp 50 (by norm_num) (by norm_num), hp (5 / 2) (by norm_num) (by norm_num),
    hp (3999 / 40) (by norm_num) (by norm_num)⟩

lemma c7_predict_unknown (zz : ℕ → ℕ → ℚ) :
    predict_job_growth defLib dfPetani "Unknown" 2022 2 (95 / 100) zz = none := by
  norm_num [predict_job_growth, calcStatsWith, dfPetani, List.filter,
    show decide ("Petani" = "Unknown") = false from rfl]

/-- C7: the batch loop never aborts on a failing category — it equals the
filterMap of the per-category predictions over the enumerated input list,
so exactly the successful summaries are returned, in input order — and on
the concrete batch [Petani, Unknown] it returns exactly the one summary of
the valid category. -/
theorem c7_batch_skips_failures_preserves_order :
    (∀ (lib : NumLib) (df : List AggRow) (jts : List String) (ty : ℤ) (ns : ℕ)
        (zs : ℕ → ℕ → ℕ → ℚ),
      batch_predict lib df jts ty ns zs =
        jts.enum.filterMap fun p =>
          predict_job_growth lib df p.2 ty ns (95 / 100) (zs p.1)) ∧
    ((batch_predict defLib dfPetani ["Petani", "Unknown"] 2022 2 fun _ _ _ => 0).map
        PredictionStats.job_type) = ["Petani"] := by
  constructor
  · intro lib df jts ty ns zs
    exact batchAux_eq lib df ty ns zs jts 0
  · rw [batch_predict]
    simp only [batchAux, c7_predict_petani, c7_predict_unknown]
    rfl

/-- Two-year single-category series: growth history [0.1], so mean_growth
0.1 and the fallback std_growth 0.05 (one growth observation). -/
def dfC2 : List AggRow := [⟨2020, "A", 100, 100, 100⟩, ⟨2021, "A", 110, 110, 100⟩]

lemma c2_stats :
    calcStatsWith defLib.std dfC2 "A" =
      some ⟨[2020, 2021], [100, 110], 110, 2021, 1 / 10, 1 / 20, 2⟩ := by
  norm_num [calcStatsWith, dfC2, List.insertionSort, List.orderedInsert, byYear,
    growthRates, npMean, List.getLastD, List.filter]

lemma c2_finals :
    finalsOf ⟨[2020, 2021], [100, 110], 110, 2021, 1 / 10, 1 / 20, 2⟩ 5
      ((2022 - (2021 : ℤ)).toNat) (fun i _ => (i : ℚ)) =
      [121, 253 / 2, 132, 275 / 2, 143] := by
  norm_num [finalsOf, simsOf, growthMatrix, compound, clip, min_def, max_def,
    List.range_succ, List.getLastD]

lemma c2_ci_lower_default :
    ((predict_job_growth defLib dfC2 "A" 2022 5 (95 / 100) fun i _ => (i : ℚ)).map
      PredictionStats.ci_lower) = some (2431 / 20) := by
  rw [predict_job_growth, c2_stats, Option.some_bind, predictWithStats, if_neg (by decide)]
  simp only [c2_finals]
  have hfl : ⌊(1 : ℚ) / 10⌋₊ = 0 := Nat.floor_eq_zero.mpr (by norm_num)
  norm_num [percentile, interpAt, List.insertionSort, List.orderedInsert, List.getD, hfl]

lemma c2_ci_lower_half :
    ((predict_job_growth defLib dfC2 "A" 2022 5 (1 / 2) fun i _ => (i : ℚ)).map
      PredictionStats.ci_lower) = some (253 / 2) := by
  rw [predict_job_growth, c2_stats, Option.some_bind, predictWithStats, if_neg (by decide)]
  simp only [c2_finals]
  have hfl : ⌊(1 : ℚ)⌋₊ = 1 := Nat.floor_one
  norm_num [percentile, interpAt, List.insertionSort, List.orderedInsert, List.getD, hfl]

/-- C2, counterexample to the claim as stated: `batch_predict` has no
confidence_level parameter, so a caller-supplied confidence level of 0.5
is not what the per-category prediction runs with — the batch returns the
0.95-default interval (ci_lower 121.55) where the specified forwarding
batch returns the 0.5 interval (ci_lower 126.5). -/
theorem c2_confidence_not_forwarded_cex :
    ((batch_predict defLib dfC2 ["A"] 2022 5 fun _ i _ => (i : ℚ)).map
        PredictionStats.ci_lower) = [2431 / 20] ∧
    ((batchPredictSpec (1 / 2) defLib dfC2 ["A"] 2022 5 fun _ i _ => (i : ℚ)).map
        PredictionStats.ci_lower) = [253 / 2] ∧
    ((2431 : ℚ) / 20) ≠ 253 / 2 := by
  refine ⟨?_, ?_, by norm_num⟩
  · rw [batch_predict]
    cases hr : predict_job_growth defLib dfC2 "A" 2022 5 (95 / 100) fun i _ => (i : ℚ) with
    | none =>
      have h := c2_ci_lower_default
      rw [hr] at h
      simp at h
    | some r =>
      have h := c2_ci_lower_default
      rw [hr] at h
      simp at h
      simp [batchAux, hr, h]
  · rw [batchPredictSpec]
    cases hr : predict_job_growth defLib dfC2 "A" 2022 5 (1 / 2) fun i _ => (i : ℚ) with
    | none =>
      have h := c2_ci_lower_half
      rw [hr] at h
      simp at h
    | some r =>
      have h := c2_ci_lower_half
      rw [hr] at h
      simp at h
      simp only [List.enum_cons, List.enumFrom_nil, List.filterMap_cons, hr,
        List.filterMap_nil, List.map_cons, List.map_nil, h]

/-- C2 as amended: `batch_predict` forwards target_year and n_simulations
unchanged to every per-category prediction but accepts no confidence
level; every per-category prediction runs with the default
confidence_level 0.95, i.e. the code's batch equals the spec's forwarding
batch only at the fixed value 0.95 (the web layer's batch endpoint, which
does forward a caller value, calls the single-prediction routine directly
and bypasses this orchestrator). -/
theorem c2_batch_uses_default_confidence (lib : NumLib) (df : List AggRow)
    (jts : List String) (ty : ℤ) (ns : ℕ) (zs : ℕ → ℕ → ℕ → ℚ) :
    batch_predict lib df jts ty ns zs = batchPredictSpec (95 / 100) lib df jts ty ns zs :=
  batchAux_eq lib df ty ns zs jts 0

lemma filter_joinRow (A : List Row) (y : ℤ) :
    ((A.map (joinRow A)).filter fun rr => decide (rr.tahun = y)) =
      (A.filter fun r => decide (r.tahun = y)).map (joinRow A) :=
  List.filter_map (joinRow A) A

lemma sum_map_div_mul (l : List ℚ) (T : ℚ) :
    (l.map fun x => x / T * 100).sum = l.sum / T * 100 := by
  induction l with
  | nil => simp
  | cons a l ih =>
    simp only [List.map_cons, List.sum_cons, ih]
    ring

lemma pct_sum (A : List Row) (y : ℤ) (hT : yearlyTotal A y ≠ 0) :
    (((A.map (joinRow A)).filter fun rr => decide (rr.tahun = y)).map
      AggRow.percentage).sum = 100 := by
  rw [filter_joinRow, List.map_map]
  have e : ∀ r ∈ A.filter fun r => decide (r.tahun = y),
      (AggRow.percentage ∘ joinRow A) r = r.jumlah_penduduk / yearlyTotal A y * 100 := by
    intro r hr
    have ht : r.tahun = y := by simpa using (List.mem_filter.mp hr).2
    show r.jumlah_penduduk / yearlyTotal A r.tahun * 100 = _
    rw [ht]
  rw [List.map_congr_left e]
  rw [show (fun r : Row => r.jumlah_penduduk / yearlyTotal A y * 100) =
      ((fun x : ℚ => x / yearlyTotal A y * 100) ∘ Row.jumlah_penduduk) from rfl]
  rw [← List.map_map, sum_map_div_mul]
  rw [show ((A.filter fun r => decide (r.tahun = y)).map Row.jumlah_penduduk).sum =
      yearlyTotal A y from rfl]
  rw [div_self hT, one_mul]

/-- C9: every aggregated row satisfies
`percentage = 100 * jumlah_penduduk / total_population`, and for each year
whose (aggregated) population total is nonzero the percentages of the
categories present that year sum to exactly 100. -/
theorem c9_percentage_invariant (df : List Row) :
    (∀ row ∈ aggregate_data df,
      row.percentage = 100 * row.jumlah_penduduk / row.total_population) ∧
    ∀ y : ℤ,
      (((aggregate_data df).filter fun r => decide (r.tahun = y)).map
        AggRow.jumlah_penduduk).sum ≠ 0 →
      (((aggregate_data df).filter fun r => decide (r.tahun = y)).map
        AggRow.percentage).sum = 100 := by
  constructor
  · intro row hrow
    simp only [aggregate_data, List.mem_map] at hrow
    obtain ⟨r, _, rfl⟩ := hrow
    simp only [joinRow]
    ring
  · intro y hsum
    have hT : yearlyTotal (List.insertionSort rowByYear (groupedRows df)) y ≠ 0 := by
      intro h0
      apply hsum
      simp only [aggregate_data]
      rw [filter_joinRow, List.map_map]
      rw [show (AggRow.jumlah_penduduk ∘
          joinRow (List.insertionSort rowByYear (groupedRows df))) =
          Row.jumlah_penduduk from rfl]
      exact h0
    simp only [aggregate_data]
    exact pct_sum _ y hT

/-- Cleaned input exercising C9: two categories in 2020 (populations 30
and 70) and one in 2021. -/
def dfC9 : List Row := [⟨2020, "A", 30⟩, ⟨2020, "B", 70⟩, ⟨2021, "A", 50⟩]

/-- Witness for C9: on the concrete input, year 2020's percentages sum to
100 (its total, 100, is nonzero). -/
theorem c9_percentage_invariant_witness :
    (((aggregate_data dfC9).filter fun r => decide (r.tahun = 2020)).map
      AggRow.percentage).sum = 100 :=
  (c9_percentage_invariant dfC9).2 2020 (by
    norm_num [aggregate_data, groupedRows, yearlyTotal, joinRow, List.insertionSort,
      List.orderedInsert, rowByYear, List.dedup, List.filter, dfC9,
      show decide ("A" = "B") = false from rfl, show decide ("B" = "A") = false from rfl])

lemma getD_mem_or (l : List ℚ) (i : ℕ) (d : ℚ) : l.getD i d ∈ l ∨ l.getD i d = d := by
  rcases lt_or_ge i l.length with h | h
  · rw [List.getD_eq_getElem l d h]
    exact Or.inl (List.getElem_mem h)
  · exact Or.inr (List.getD_eq_default l d h)

lemma interpAt_nonneg {s : List ℚ} {h : ℚ} (hs : ∀ x ∈ s, 0 ≤ x) (h0 : 0 ≤ h) :
    0 ≤ interpAt s h := by
  unfold interpAt
  have hfrac0 : 0 ≤ h - ((⌊h⌋₊ : ℕ) : ℚ) := by
    have := Nat.floor_le h0
    linarith
  have hfrac1 : h - ((⌊h⌋₊ : ℕ) : ℚ) < 1 := by
    have := Nat.lt_floor_add_one h
    linarith
  have hlo : 0 ≤ s.getD ⌊h⌋₊ 0 := by
    rcases getD_mem_or s ⌊h⌋₊ 0 with hm | he
    · exact hs _ hm
    · rw [he]
  have hhi : 0 ≤ s.getD (⌊h⌋₊ + 1) (s.getD ⌊h⌋₊ 0) := by
    rcases getD_mem_or s (⌊h⌋₊ + 1) (s.getD ⌊h⌋₊ 0) with hm | he
    · exact hs _ hm
    · rw [he]
      exact hlo
  have key : s.getD ⌊h⌋₊ 0 + (h - ((⌊h⌋₊ : ℕ) : ℚ)) *
      (s.getD (⌊h⌋₊ + 1) (s.getD ⌊h⌋₊ 0) - s.getD ⌊h⌋₊ 0) =
      (1 - (h - ((⌊h⌋₊ : ℕ) : ℚ))) * s.getD ⌊h⌋₊ 0 +
      (h - ((⌊h⌋₊ : ℕ) : ℚ)) * s.getD (⌊h⌋₊ + 1) (s.getD ⌊h⌋₊ 0) := by
    ring
  rw [key]
  have t1 : 0 ≤ (h - ((⌊h⌋₊ : ℕ) : ℚ)) * s.getD (⌊h⌋₊ + 1) (s.getD ⌊h⌋₊ 0) :=
    mul_nonneg hfrac0 hhi
  have t2 : 0 ≤ (1 - (h - ((⌊h⌋₊ : ℕ) : ℚ))) * s.getD ⌊h⌋₊ 0 :=
    mul_nonneg (by linarith) hlo
  linarith

lemma percentile_nonneg {l : List ℚ} {q : ℚ} (hl : ∀ x ∈ l, 0 ≤ x) (hq : 0 ≤ q) :
    0 ≤ percentile l q := by
  cases l with
  | nil => simp [percentile, interpAt, List.insertionSort]
  | cons a t =>
    unfold percentile
    apply interpAt_nonneg
    · intro x hx
      exact hl x ((List.perm_insertionSort _ _).mem_iff.mp hx)
    · have hlen : 1 ≤ (List.insertionSort (· ≤ ·) (a :: t)).length := by
        rw [List.length_insertionSort]
        simp
      have hlen' : (1 : ℚ) ≤ ((List.insertionSort (· ≤ ·) (a :: t)).length : ℚ) := by
        exact_mod_cast hlen
      have h100 : 0 ≤ q / 100 := by positivity
      nlinarith

lemma compound_mem_nonneg {p0 : ℚ} {gs : List ℚ} (hp0 : 0 ≤ p0)
    (hg : ∀ g ∈ gs, -(1 / 2) ≤ g) : ∀ x ∈ compound p0 gs, 0 ≤ x := by
  induction gs generalizing p0 with
  | nil =>
    intro x hx
    simp only [compound, List.mem_singleton] at hx
    subst hx
    exact hp0
  | cons g gs ih =>
    intro x hx
    simp only [compound, List.mem_cons] at hx
    rcases hx with rfl | hx
    · exact hp0
    · have hgg := hg g (List.mem_cons_self g gs)
      refine ih ?_ (fun g' hg' => hg g' (List.mem_cons_of_mem _ hg')) x hx
      have : (0 : ℚ) ≤ 1 + g := by linarith
      exact mul_nonneg hp0 this

lemma getLastD_mem {l : List ℚ} (h : l ≠ []) (d : ℚ) : l.getLastD d ∈ l := by
  induction l generalizing d with
  | nil => exact absurd rfl h
  | cons a t ih =>
    rw [List.getLastD_cons]
    cases t with
    | nil => simp [List.getLastD]
    | cons b t2 => exact List.mem_cons_of_mem _ (ih (by simp) a)

lemma foldl_min_nonneg {xs : List ℚ} {x : ℚ} (hx : 0 ≤ x) (hxs : ∀ a ∈ xs, 0 ≤ a) :
    0 ≤ xs.foldl min x := by
  induction xs generalizing x with
  | nil => exact hx
  | cons a t ih =>
    exact ih (le_min hx (hxs a (List.mem_cons_self a t)))
      (fun b hb => hxs b (List.mem_cons_of_mem _ hb))

lemma foldl_max_nonneg {xs : List ℚ} {x : ℚ} (hx : 0 ≤ x) : 0 ≤ xs.foldl max x := by
  induction xs generalizing x with
  | nil => exact hx
  | cons a t ih => exact ih (le_trans hx (le_max_left x a))

lemma simsOf_nonneg {s : HistStats ℚ} (hp0 : 0 ≤ s.current_population) (ns y : ℕ)
    (z : ℕ → ℕ → ℚ) : matrixNonneg (simsOf s ns y z) := by
  intro row hrow x hx
  simp only [simsOf, List.mem_map] at hrow
  obtain ⟨gr, hgr, rfl⟩ := hrow
  refine compound_mem_nonneg hp0 ?_ x hx
  intro g hg
  obtain ⟨i, rfl⟩ := mem_growthMatrix hgr
  simp only [List.mem_map, List.mem_range] at hg
  obtain ⟨t, _, rfl⟩ := hg
  exact lo_le_clip _ (by norm_num)

lemma finalsOf_nonneg {s : HistStats ℚ} (hp0 : 0 ≤ s.current_population) (ns y : ℕ)
    (z : ℕ → ℕ → ℚ) : ∀ x ∈ finalsOf s ns y z, 0 ≤ x := by
  intro x hx
  simp only [finalsOf, List.mem_map] at hx
  obtain ⟨row, hrow, rfl⟩ := hx
  have hne : row ≠ [] := by
    simp only [simsOf, List.mem_map] at hrow
    obtain ⟨gr, _, rfl⟩ := hrow
    exact compound_ne_nil _ _
  exact simsOf_nonneg hp0 ns y z row hrow _ (getLastD_mem hne 0)

/-- C10: with a non-negative current population every entry of the
trajectory matrix is non-negative (each step multiplies by
`1 + clipped growth ≥ 0.5`), and the mean, median, min, max and both
confidence-interval bounds of the returned summary are non-negative. -/
theorem c10_nonnegative_predictions (lib : NumLib) (s : HistStats ℚ) (jt : String)
    (ty : ℤ) (ns : ℕ) (c : ℚ) (z : ℕ → ℕ → ℚ) (hp0 : 0 ≤ s.current_population)
    (hc0 : 0 < c) (hc1 : c < 1) :
    matrixNonneg (simsOf s ns (ty - s.current_year).toNat z) ∧
    nonnegOk (predictWithStats lib s jt ty ns c z) := by
  refine ⟨simsOf_nonneg hp0 _ _ z, ?_⟩
  intro r hr
  by_cases hcond : ty - s.current_year ≤ 0
  · simp only [predictWithStats, if_pos hcond] at hr
    exact absurd hr (by simp)
  · simp only [predictWithStats, if_neg hcond] at hr
    simp only [Option.mem_def, Option.some.injEq] at hr
    subst hr
    have hfin := finalsOf_nonneg hp0 ns (ty - s.current_year).toNat z
    refine ⟨?_, ?_, ?_, ?_, ?_, ?_⟩
    · exact div_nonneg (List.sum_nonneg hfin) (Nat.cast_nonneg _)
    · exact percentile_nonneg hfin (by norm_num)
    · show 0 ≤ npMinimum (finalsOf s ns (ty - s.current_year).toNat z)
      cases hf : finalsOf s ns (ty - s.current_year).toNat z with
      | nil => exact le_refl 0
      | cons a t =>
        refine foldl_min_nonneg (hfin a (by rw [hf]; exact List.mem_cons_self a t)) ?_
        intro b hb
        exact hfin b (by rw [hf]; exact List.mem_cons_of_mem _ hb)
    · show 0 ≤ npMaximum (finalsOf s ns (ty - s.current_year).toNat z)
      cases hf : finalsOf s ns (ty - s.current_year).toNat z with
      | nil => exact le_refl 0
      | cons a t => exact foldl_max_nonneg (hfin a (by rw [hf]; exact List.mem_cons_self a t))
    · exact percentile_nonneg hfin (by linarith)
    · exact percentile_nonneg hfin (by linarith)

/-- Witness for C10 at a concrete prediction request. -/
theorem c10_nonnegative_predictions_witness :
    matrixNonneg (simsOf sC1 5 (((2022 : ℤ) - 2021).toNat) zC1) ∧
    nonnegOk (predictWithStats defLib sC1 "x" 2022 5 (19 / 20) zC1) :=
  c10_nonnegative_predictions defLib sC1 "x" 2022 5 (19 / 20) zC1 (by norm_num [sC1])
    (by norm_num) (by norm_num)

lemma sorted_getD_le {s : List ℚ} (hs : List.Sorted (· ≤ ·) s) {i j : ℕ} (d e : ℚ)
    (hij : i ≤ j) (hj : j < s.length) : s.getD i d ≤ s.getD j e := by
  have hi : i < s.length := lt_of_le_of_lt hij hj
  rw [List.getD_eq_getElem s d hi, List.getD_eq_getElem s e hj]
  rcases eq_or_lt_of_le hij with rfl | hlt
  · exact le_refl _
  · have h := List.Sorted.rel_get_of_lt hs
      (show (⟨i, hi⟩ : Fin s.length) < ⟨j, hj⟩ by exact hlt)
    simpa using h

lemma sorted_getD_succ {s : List ℚ} (hs : List.Sorted (· ≤ ·) s) (i : ℕ) :
    s.getD i 0 ≤ s.getD (i + 1) (s.getD i 0) := by
  rcases lt_or_ge (i + 1) s.length with h | h
  · exact sorted_getD_le hs 0 (s.getD i 0) (Nat.le_succ i) h
  · rw [List.getD_eq_default _ _ h]

lemma interpAt_mono {s : List ℚ} (hs : List.Sorted (· ≤ ·) s) {h1 h2 : ℚ}
    (h0 : 0 ≤ h1) (h12 : h1 ≤ h2) (hub : h2 ≤ (s.length : ℚ) - 1) :
    interpAt s h1 ≤ interpAt s h2 := by
  have h02 : 0 ≤ h2 := le_trans h0 h12
  have hi12 : ⌊h1⌋₊ ≤ ⌊h2⌋₊ := Nat.floor_le_floor h12
  have hf1lo : ((⌊h1⌋₊ : ℕ) : ℚ) ≤ h1 := Nat.floor_le h0
  have hf1hi : h1 < (⌊h1⌋₊ : ℕ) + 1 := Nat.lt_floor_add_one h1
  have hf2lo : ((⌊h2⌋₊ : ℕ) : ℚ) ≤ h2 := Nat.floor_le h02
  have hi2len : ⌊h2⌋₊ < s.length := by
    have hq : ((⌊h2⌋₊ : ℕ) : ℚ) < (s.length : ℚ) := by linarith
    exact_mod_cast hq
  rcases eq_or_lt_of_le hi12 with heq | hlt
  · simp only [interpAt, ← heq]
    have hnext := sorted_getD_succ hs ⌊h1⌋₊
    nlinarith [mul_nonneg (show (0 : ℚ) ≤ h2 - h1 by linarith)
      (show (0 : ℚ) ≤ s.getD (⌊h1⌋₊ + 1) (s.getD ⌊h1⌋₊ 0) - s.getD ⌊h1⌋₊ 0 by linarith)]
  · have step1 : interpAt s h1 ≤ s.getD (⌊h1⌋₊ + 1) (s.getD ⌊h1⌋₊ 0) := by
      simp only [interpAt]
      have hnext := sorted_getD_succ hs ⌊h1⌋₊
      nlinarith [mul_nonneg (show (0 : ℚ) ≤ 1 - (h1 - ((⌊h1⌋₊ : ℕ) : ℚ)) by linarith)
        (show (0 : ℚ) ≤ s.getD (⌊h1⌋₊ + 1) (s.getD ⌊h1⌋₊ 0) - s.getD ⌊h1⌋₊ 0 by linarith)]
    have step2 : s.getD (⌊h1⌋₊ + 1) (s.getD ⌊h1⌋₊ 0) ≤ s.getD ⌊h2⌋₊ 0 :=
      sorted_getD_le hs _ 0 (Nat.succ_le_of_lt hlt) hi2len
    have step3 : s.getD ⌊h2⌋₊ 0 ≤ interpAt s h2 := by
      simp only [interpAt]
      have hnext := sorted_getD_succ hs ⌊h2⌋₊
      nlinarith [mul_nonneg (show (0 : ℚ) ≤ h2 - ((⌊h2⌋₊ : ℕ) : ℚ) by linarith)
        (show (0 : ℚ) ≤ s.getD (⌊h2⌋₊ + 1) (s.getD ⌊h2⌋₊ 0) - s.getD ⌊h2⌋₊ 0 by linarith)]
    linarith

lemma percentile_mono (l : List ℚ) {q1 q2 : ℚ} (h0 : 0 ≤ q1) (h12 : q1 ≤ q2)
    (h100 : q2 ≤ 100) : percentile l q1 ≤ percentile l q2 := by
  unfold percentile
  have hs : List.Sorted (· ≤ ·) (List.insertionSort (· ≤ ·) l) :=
    List.sorted_insertionSort _ l
  rcases Nat.eq_zero_or_pos (List.insertionSort (· ≤ ·) l).length with h | h
  · rw [List.length_eq_zero.mp h]
    simp [interpAt]
  · have hlen : (1 : ℚ) ≤ ((List.insertionSort (· ≤ ·) l).length : ℚ) := by
      exact_mod_cast h
    apply interpAt_mono hs
    · have : 0 ≤ q1 / 100 := by positivity
      nlinarith
    · have hq : q1 / 100 ≤ q2 / 100 := by linarith
      nlinarith
    · have hq : q2 / 100 ≤ 1 := by linarith
      nlinarith

/-- C3: for every confidence_level strictly between 0 and 1, the returned
summary satisfies ci_lower ≤ median_prediction ≤ ci_upper: the three
values are percentiles of the same terminal distribution at ranks
50(1-c) ≤ 50 ≤ 100 - (1-c)/2, and the interpolated percentile is monotone
in the rank on a sorted sample. -/
theorem c3_ci_brackets_median (lib : NumLib) (s : HistStats ℚ) (jt : String) (ty : ℤ)
    (ns : ℕ) (c : ℚ) (z : ℕ → ℕ → ℚ) (hc0 : 0 < c) (hc1 : c < 1) :
    ciOk (predictWithStats lib s jt ty ns c z) := by
  intro r hr
  by_cases hcond : ty - s.current_year ≤ 0
  · simp only [predictWithStats, if_pos hcond] at hr
    exact absurd hr (by simp)
  · simp only [predictWithStats, if_neg hcond] at hr
    simp only [Option.mem_def, Option.some.injEq] at hr
    subst hr
    constructor
    · exact percentile_mono _ (by linarith) (by linarith) (by norm_num)
    · exact percentile_mono _ (by norm_num) (by linarith) (by linarith)

/-- Witness for C3 at a concrete prediction request with
confidence_level 0.5. -/
theorem c3_ci_brackets_median_witness :
    ciOk (predictWithStats defLib sC1 "x" 2022 5 (1 / 2) zC1) :=
  c3_ci_brackets_median defLib sC1 "x" 2022 5 (1 / 2) zC1 (by norm_num) (by norm_num)

lemma growthRates_length (l : List ℚ) : (growthRates l).length = l.length - 1 := by
  induction l with
  | nil => rfl
  | cons a t ih =>
    cases t with
    | nil => rfl
    | cons b rest =>
      simp only [growthRates, List.length_cons] at ih ⊢
      omega

lemma growthRates_getD (l : List ℚ) (i : ℕ) (h : i + 1 < l.length) :
    (growthRates l).getD i 0 = (l.getD (i + 1) 0 - l.getD i 0) / l.getD i 0 := by
  induction l generalizing i with
  | nil => simp at h
  | cons a t ih =>
    cases t with
    | nil => simp at h
    | cons b rest =>
      cases i with
      | zero => rfl
      | succ n =>
        simp only [growthRates, List.getD_cons_succ]
        exact ih n (by simpa using h)

lemma cast_list_sum (l : List ℚ) : ((l.sum : ℚ) : ℝ) = (l.map (Rat.cast : ℚ → ℝ)).sum := by
  induction l with
  | nil => simp
  | cons a t ih => simp only [List.sum_cons, List.map_cons, Rat.cast_add, ih]

lemma npStd_eq_popStdDev (l : List ℚ) : npStd l = popStdDev l := by
  unfold npStd popStdDev popVariance npMean
  congr 1
  rw [Rat.cast_div, cast_list_sum, List.map_map]
  congr 1
  apply congrArg List.sum
  apply List.map_congr_left
  intro x _
  show (((x - l.sum / l.length) ^ 2 : ℚ) : ℝ) = _
  push_cast
  rfl

/-- C4: for a category with n ≥ 2 aggregated rows and nonzero prior-year
populations, the statistics computation sorts by year ascending, derives
exactly n-1 consecutive growth ratios (p[i+1]-p[i])/p[i], and stores their
arithmetic mean as mean_growth and their population standard deviation as
std_growth when at least two growth observations exist (the constant 0.05
when exactly one exists). -/
theorem c4_historical_stats_spec (df : List AggRow) (jt : String)
    (h2 : 2 ≤ (df.filter fun r => decide (r.jenis_pekerjaan = jt)).length)
    (hnz : ∀ p ∈ ((List.insertionSort byYear
        (df.filter fun r => decide (r.jenis_pekerjaan = jt))).map
        AggRow.jumlah_penduduk).dropLast, p ≠ 0) :
    statsSpec df jt := by
  have hlen : (List.insertionSort byYear
      (df.filter fun r => decide (r.jenis_pekerjaan = jt))).length =
      (df.filter fun r => decide (r.jenis_pekerjaan = jt)).length :=
    List.length_insertionSort _ _
  have hglen : (growthRates ((List.insertionSort byYear
      (df.filter fun r => decide (r.jenis_pekerjaan = jt))).map
      AggRow.jumlah_penduduk)).length =
      (df.filter fun r => decide (r.jenis_pekerjaan = jt)).length - 1 := by
    rw [growthRates_length, List.length_map, hlen]
  have hne : ¬ (growthRates ((List.insertionSort byYear
      (df.filter fun r => decide (r.jenis_pekerjaan = jt))).map
      AggRow.jumlah_penduduk)).isEmpty := by
    rw [List.isEmpty_iff_length_eq_zero, hglen]
    omega
  refine ⟨List.perm_insertionSort _ _, ?_, ?_, ?_, ?_, ?_⟩
  · show List.Pairwise _ _
    rw [List.pairwise_map]
    exact List.sorted_insertionSort byYear _
  · exact ⟨growthRates_length _, fun i hi => growthRates_getD _ i hi⟩
  · exact hglen
  · simp only [calculate_historical_stats, calcStatsWith,
      if_neg (show ¬ (df.filter fun r => decide (r.jenis_pekerjaan = jt)).length < 2 by omega)]
    rfl
  · intro st hst
    simp only [calculate_historical_stats, calcStatsWith,
      if_neg (show ¬ (df.filter fun r => decide (r.jenis_pekerjaan = jt)).length < 2 by omega),
      Option.mem_def, Option.some.injEq] at hst
    subst hst
    refine ⟨rfl, ?_, ?_, ?_⟩
    · show (if _ then (3 : ℚ) / 100 else _) = _
      rw [if_neg hne]
      rfl
    · intro hg2
      show (if _ then _ else ((1 : ℝ) / 20)) = _
      rw [if_pos (by omega : 1 < (growthRates _).length)]
      exact npStd_eq_popStdDev _
    · intro hg1
      show (if _ then _ else ((1 : ℝ) / 20)) = _
      rw [if_neg (by omega : ¬ 1 < (growthRates _).length)]

/-- Witness for C4: three Petani rows, given out of year order, with
populations 100, 100, 110. -/
theorem c4_historical_stats_spec_witness :
    statsSpec [⟨2019, "Petani", 100, 100, 100⟩, ⟨2018, "Petani", 100, 100, 100⟩,
      ⟨2020, "Petani", 110, 110, 100⟩] "Petani" :=
  c4_historical_stats_spec _ "Petani" (by decide) (by decide)
